import Mathlib

/-!
Verification of the face-reference-selection core of the repository
(`app/services/face_detection.py`) against its natural-language specification.

The Python code is shallowly embedded:

* A decoded OpenCV image (`numpy` array of shape `height × width × 3`, BGR)
  becomes the structure `Img`: its dimensions plus a pixel function.
* Extracted rectangular sub-arrays (`img[y1:y2, x1:x2]`) become
  `List (List Pixel)` matrices, produced by `sliceMat`, which mirrors numpy
  slice semantics for non-negative slice endpoints (endpoints are clamped to
  the array extent and an empty array results when the range is inverted).
  Negative-endpoint wrap-around indexing is not modelled; every theorem whose
  inputs could reach a slice with a negative endpoint carries explicit
  non-negativity hypotheses.
* Python `float` arithmetic is modelled by exact rational arithmetic (`ℚ`).
  `int(x)` (truncation toward zero) is `pyInt`; integer `//` (floor division)
  is `Int.fdiv`.
* The pretrained InsightFace analyzer is an external collaborator: its output
  for an image is supplied as data (`RawFace`), exactly as the code receives
  it after `face.bbox.astype(int)`.
* `cv2.imdecode` returns `None` for undecodable bytes; an input byte buffer
  is therefore modelled by what it decodes to (`ImageBytes.decoded`) together
  with the analyzer's detections on it.  Calling the analyzer on `None`
  raises (`AttributeError` on `img.shape`), modelled as `Except.error`.
* `cv2.cvtColor`/JPEG encoding in `_cv2_to_bytes` raises on an empty source
  array and is otherwise lossless for the properties of interest here, so
  `cv2ToBytes` is the identity on non-empty matrices and `Except.error` on
  empty ones.
* Grayscale conversion uses OpenCV's fixed-point `BGR2GRAY` formula.
  The `LAB` L channel extraction used by the skin-tone classifier is an
  opaque per-pixel conversion and is passed in as a function argument `labL`.
* `cv2.Laplacian(gray, CV_64F)` applies the 3×3 kernel `[[0,1,0],[1,-4,1],[0,1,0]]`
  with `BORDER_REFLECT_101` borders; `.var()` is the population variance.
-/

/-- One 8-bit BGR pixel.  (Values beyond 255 never arise in the examples; the
embedding does not need the bound.) -/
structure Pixel where
  b : ℕ
  g : ℕ
  r : ℕ
deriving DecidableEq, Repr

/-- A decoded image: `height × width` pixel grid (numpy array in BGR order). -/
structure Img where
  height : ℕ
  width : ℕ
  pix : ℕ → ℕ → Pixel

/-- An integer pixel box `x1 y1 x2 y2`, as produced by `face.bbox.astype(int)`. -/
structure BBox where
  x1 : ℤ
  y1 : ℤ
  x2 : ℤ
  y2 : ℤ
deriving DecidableEq, Repr

/-- Analyzer pose estimate; the code reads `pose[0]` as pitch and `pose[1]` as yaw. -/
structure Pose where
  pitch : ℚ
  yaw : ℚ
deriving DecidableEq

/-- One face detection as handed to the service by the InsightFace analyzer:
bounding box (already cast to integers), detection score, optional pose,
optional age/gender, optional embedding. -/
structure RawFace where
  bbox : BBox
  detScore : ℚ
  pose : Option Pose
  age : Option ℤ
  gender : Option ℤ
  embedding : Option (List ℚ)
deriving DecidableEq

/-- An input byte buffer, represented by its decoding outcome
(`cv2.imdecode` returns `None` exactly on malformed/empty/unsupported input)
together with the detections the analyzer yields on the decoded image. -/
structure ImageBytes where
  decoded : Option Img
  detections : List RawFace

/-- Python `int(x)`: truncation toward zero. -/
def pyInt (q : ℚ) : ℤ := if q < 0 then -⌊-q⌋ else ⌊q⌋

/-- Config default 64 for `settings.min_face_size`. -/
def minFaceSize : ℤ := 64

/-- Config default 0.3 for `settings.face_padding`. -/
def facePadding : ℚ := 3 / 10

/-- numpy rectangular slice `img[r1:r2, c1:c2]` for non-negative endpoints:
row/column stops are clamped to the array extent and an inverted range is
empty.  (numpy's negative-endpoint wrap-around is not modelled; theorems keep
endpoints non-negative.) -/
def sliceMat (img : Img) (r1 r2 c1 c2 : ℤ) : List (List Pixel) :=
  let r1n := (max r1 0).toNat
  let c1n := (max c1 0).toNat
  let nrows := (min r2 (img.height : ℤ) - max r1 0).toNat
  let ncols := (min c2 (img.width : ℤ) - max c1 0).toNat
  (List.range nrows).map fun i =>
    (List.range ncols).map fun j => img.pix (r1n + i) (c1n + j)

/-- Number of pixels of a matrix (`arr.size` divided by the channel count). -/
def matSize (m : List (List Pixel)) : ℕ := (m.map List.length).sum

/-- The whole image as a matrix (`img[0:H, 0:W]`). -/
def imgToMat (img : Img) : List (List Pixel) := sliceMat img 0 img.height 0 img.width

/-- OpenCV fixed-point `BGR2GRAY`: `(B·1868 + G·9617 + R·4899 + 2^13) >> 14`. -/
def bgr2gray (p : Pixel) : ℕ := (p.b * 1868 + p.g * 9617 + p.r * 4899 + 8192) / 16384

/-- Grayscale image of a BGR matrix. -/
def grayMat (m : List (List Pixel)) : List (List ℕ) := m.map (List.map bgr2gray)

/-- OpenCV `BORDER_REFLECT_101` index folding, total for the ±1 offsets used
by the 3×3 Laplacian kernel (a single-pixel extent always maps to index 0,
as in OpenCV's `borderInterpolate` special case). -/
def refl101 (n : ℕ) (i : ℤ) : ℕ :=
  if n ≤ 1 then 0
  else if i < 0 then (-i).toNat
  else if (n : ℤ) ≤ i then (2 * (n : ℤ) - 2 - i).toNat
  else i.toNat

/-- Matrix lookup with default 0. -/
def mget (g : List (List ℕ)) (i j : ℕ) : ℕ := (g.getD i []).getD j 0

/-- Model of `cv2.Laplacian(gray, CV_64F)` with the default aperture: 3×3 kernel
`[[0,1,0],[1,-4,1],[0,1,0]]` and `BORDER_REFLECT_101` border handling. -/
def laplacianMat (g : List (List ℕ)) : List (List ℤ) :=
  let h := g.length
  let w := (g.headD []).length
  (List.range h).map fun (i : ℕ) =>
    (List.range w).map fun (j : ℕ) =>
      (mget g (refl101 h ((i : ℤ) - 1)) j : ℤ) +
        (mget g (refl101 h ((i : ℤ) + 1)) j : ℤ) +
        (mget g i (refl101 w ((j : ℤ) - 1)) : ℤ) +
        (mget g i (refl101 w ((j : ℤ) + 1)) : ℤ) -
        4 * (mget g i j : ℤ)

/-- Model of `numpy.var`: population variance (mean of squared deviations). -/
def varQ (xs : List ℤ) : ℚ :=
  if xs.length = 0 then 0
  else
    let n : ℚ := xs.length
    let mean : ℚ := ((xs.map fun x => (x : ℚ)).sum) / n
    ((xs.map fun x => ((x : ℚ) - mean) ^ 2).sum) / n

/-- Laplacian variance of a grayscale matrix (the code's sharpness signal). -/
def lapVar (g : List (List ℕ)) : ℚ := varQ (laplacianMat g).flatten

/-- Transcription of `FaceDetectionService._calculate_quality_score`, line by line:
confidence term, relative-size term, pose term (flat 15 when pose is absent),
and Laplacian-variance sharpness term over the bbox clamped to the image. -/
def calculateQualityScore (face : RawFace) (img : Img) : ℚ :=
  let s1 : ℚ := face.detScore * 30
  let faceWidth : ℤ := face.bbox.x2 - face.bbox.x1
  let faceHeight : ℤ := face.bbox.y2 - face.bbox.y1
  let faceAreaRatio : ℚ := ((faceWidth * faceHeight : ℤ) : ℚ) / ((img.width * img.height : ℕ) : ℚ)
  let sizeScore : ℚ := min (faceAreaRatio * 100) 25
  let s3 : ℚ :=
    match face.pose with
    | some p => 30 - |p.yaw| / 90 * 20 - |p.pitch| / 90 * 10
    | none => 15
  let cx1 : ℤ := max 0 face.bbox.x1
  let cy1 : ℤ := max 0 face.bbox.y1
  let cx2 : ℤ := min (img.width : ℤ) face.bbox.x2
  let cy2 : ℤ := min (img.height : ℤ) face.bbox.y2
  let faceRegion := sliceMat img cy1 cy2 cx1 cx2
  let s4 : ℚ :=
    if 0 < matSize faceRegion then min (lapVar (grayMat faceRegion) / 100) 15 else 0
  s1 + sizeScore + s3 + s4

/-- The padded-and-clamped rectangle computed by
`FaceDetectionService._crop_face_tight`. -/
def cropFaceTightRect (img : Img) (bbox : BBox) (padding : ℚ) : BBox :=
  let faceWidth : ℤ := bbox.x2 - bbox.x1
  let faceHeight : ℤ := bbox.y2 - bbox.y1
  let padX : ℤ := pyInt ((faceWidth : ℚ) * padding)
  let padY : ℤ := pyInt ((faceHeight : ℚ) * padding)
  { x1 := max 0 (bbox.x1 - padX)
    y1 := max 0 (bbox.y1 - padY)
    x2 := min (img.width : ℤ) (bbox.x2 + padX)
    y2 := min (img.height : ℤ) (bbox.y2 + padY) }

/-- Model of `FaceDetectionService._crop_face_tight`: the sliced padded face region. -/
def cropFaceTight (img : Img) (bbox : BBox) (padding : ℚ) : List (List Pixel) :=
  let r := cropFaceTightRect img bbox padding
  sliceMat img r.y1 r.y2 r.x1 r.x2

/-- The clamped rectangle computed by `FaceDetectionService._crop_upper_body`:
width 2.5× the face width centred on the face's horizontal midpoint, vertical
extent from 0.5× face height above the box to 2.0× face height below it. -/
def cropUpperBodyRect (img : Img) (bbox : BBox) : BBox :=
  let faceWidth : ℤ := bbox.x2 - bbox.x1
  let faceHeight : ℤ := bbox.y2 - bbox.y1
  let faceCenterX : ℤ := Int.fdiv (bbox.x1 + bbox.x2) 2
  let bodyWidth : ℤ := pyInt ((faceWidth : ℚ) * (5 / 2))
  let bodyHeightAbove : ℤ := pyInt ((faceHeight : ℚ) * (1 / 2))
  let bodyHeightBelow : ℤ := pyInt ((faceHeight : ℚ) * 2)
  { x1 := max 0 (faceCenterX - Int.fdiv bodyWidth 2)
    y1 := max 0 (bbox.y1 - bodyHeightAbove)
    x2 := min (img.width : ℤ) (faceCenterX + Int.fdiv bodyWidth 2)
    y2 := min (img.height : ℤ) (bbox.y2 + bodyHeightBelow) }

/-- Model of `FaceDetectionService._crop_upper_body`: the sliced upper-body region. -/
def cropUpperBody (img : Img) (bbox : BBox) : List (List Pixel) :=
  let r := cropUpperBodyRect img bbox
  sliceMat img r.y1 r.y2 r.x1 r.x2

/-- Transcription of `FaceDetectionService._detect_skin_tone`: sample the central
quarter-to-three-quarters sub-box, average the LAB lightness channel (the
per-pixel LAB L conversion `labL` is the external `cv2.cvtColor` routine),
and bucket with strict thresholds 180 and 120; empty sample defaults to
"medium". -/
def detectSkinTone (labL : Pixel → ℚ) (img : Img) (bbox : BBox) : String :=
  let centerX1 : ℤ := bbox.x1 + Int.fdiv (bbox.x2 - bbox.x1) 4
  let centerX2 : ℤ := bbox.x2 - Int.fdiv (bbox.x2 - bbox.x1) 4
  let centerY1 : ℤ := bbox.y1 + Int.fdiv (bbox.y2 - bbox.y1) 4
  let centerY2 : ℤ := bbox.y2 - Int.fdiv (bbox.y2 - bbox.y1) 4
  let faceCenter := sliceMat img centerY1 centerY2 centerX1 centerX2
  if matSize faceCenter = 0 then ("medium")
  else
    let avgLightness : ℚ := ((faceCenter.flatten.map labL).sum) / (matSize faceCenter : ℚ)
    if 180 < avgLightness then ("light")
    else if 120 < avgLightness then ("medium")
    else ("dark")

/-- Model of `FacialAttributes` (glasses/beard detection is not implemented and stays
`false`). -/
structure FacialAttributes where
  estimatedAge : Option ℤ := none
  gender : Option String := none
  hasGlasses : Bool := false
  hasBeard : Bool := false
  skinTone : Option String := none
deriving DecidableEq

/-- Model of `FaceDetectionService._extract_attributes`: age passes through, the
analyzer's binary gender code maps to "male" on 1 and "female" otherwise. -/
def extractAttributes (face : RawFace) : FacialAttributes :=
  { estimatedAge := face.age
    gender := face.gender.map fun gcode => if gcode = 1 then ("male") else ("female")
    hasGlasses := false
    hasBeard := false
    skinTone := none }

/-- The failure modes of the pipeline that the real code surfaces as raised
exceptions (none of them is caught anywhere in the service). -/
inductive PipelineError where
  /-- Raised by `face_analyzer.get(None)` after `cv2.imdecode` returned `None`. -/
  | analyzerNoneImage
  /-- Raised by `cv2.cvtColor` inside `_cv2_to_bytes` on an empty crop. -/
  | emptyImageEncode
  /-- Raised by `cv2.resize` with a zero output dimension. -/
  | resizeEmptyOutput
deriving DecidableEq, Repr

/-- Model of `FaceDetectionService._bytes_to_cv2`: `cv2.imdecode`, which yields `None`
(not an exception) on malformed, empty, truncated or unsupported input. -/
def bytesToCv2 (b : ImageBytes) : Option Img := b.decoded

/-- Model of `FaceDetectionService._cv2_to_bytes`: raises (`cv2.cvtColor` assertion) on
an empty array; on non-empty input the encoding round-trips the pixel data for
the purposes of this development, so it is modelled as the identity. -/
def cv2ToBytes (m : List (List Pixel)) : Except PipelineError (List (List Pixel)) :=
  if matSize m = 0 then .error .emptyImageEncode else .ok m

/-- Model of `FaceResult`: one surviving detection with its crop, score and the raw
face object / source image the later stages reach back into. -/
structure FaceResult where
  croppedImage : List (List Pixel)
  qualityScore : ℚ
  detectionConfidence : ℚ
  bbox : BBox
  faceObj : RawFace
  originalImage : Img

/-- The minimum-size filter in `detect_faces_with_details`: skip a face when
its bbox width or height is below `settings.min_face_size`. -/
def sizePass (f : RawFace) : Bool :=
  !(f.bbox.x2 - f.bbox.x1 < minFaceSize || f.bbox.y2 - f.bbox.y1 < minFaceSize)

/-- The `FaceResult` record built for one surviving face (crop not yet
encoded). -/
def mkFaceResult (img : Img) (f : RawFace) : FaceResult :=
  { croppedImage := cropFaceTight img f.bbox facePadding
    qualityScore := calculateQualityScore f img
    detectionConfidence := f.detScore
    bbox := f.bbox
    faceObj := f
    originalImage := img }

/-- Sequential effectful map over a list, stopping at the first error —
exactly the behaviour of a Python `for` loop whose body may raise. -/
def mapExcept (f : α → Except ε β) : List α → Except ε (List β)
  | [] => .ok []
  | x :: xs =>
    match f x with
    | .error e => .error e
    | .ok y =>
      match mapExcept f xs with
      | .error e => .error e
      | .ok ys => .ok (y :: ys)

/-- Model of `FaceDetectionService.detect_faces_with_details`: decode, run the
analyzer (which raises on a `None` image), filter by minimum size, score and
crop each survivor.  Note: the detector bboxes are used as-is — no clamping
to image bounds happens here. -/
def detectFacesWithDetails (b : ImageBytes) : Except PipelineError (List FaceResult) :=
  match bytesToCv2 b with
  | none => .error .analyzerNoneImage
  | some img =>
    mapExcept
      (fun f =>
        (cv2ToBytes (cropFaceTight img f.bbox facePadding)).map fun cropped =>
          { mkFaceResult img f with croppedImage := cropped })
      (b.detections.filter sizePass)

/-- The pure value `detect_faces_with_details` returns when no encode step
raises: all size-surviving detections, in analyzer order. -/
def detectPure (img : Img) (faces : List RawFace) : List FaceResult :=
  (faces.filter sizePass).map (mkFaceResult img)

/-- All observations collected across the inputs, in input order then
detection order — the `all_results` list of `process_user_images` (images
that decode to `None` contribute nothing; in the real control flow they in
fact abort the call, which the theorems about `processUserImages` track via
`Except`). -/
def survivors (inputs : List ImageBytes) : List FaceResult :=
  inputs.flatMap fun b =>
    match b.decoded with
    | none => []
    | some img => detectPure img b.detections

/-- Stable descending insertion by quality score: the head of the result is
the first-encountered maximum, matching Python's stable `list.sort(key=...,
reverse=True)` followed by `[0]`. -/
def insertByScore (x : FaceResult) : List FaceResult → List FaceResult
  | [] => [x]
  | y :: ys =>
    if y.qualityScore ≤ x.qualityScore then x :: y :: ys
    else y :: insertByScore x ys

/-- Stable sort by quality score, descending (`all_results.sort(key=lambda
x: x.quality_score, reverse=True)`). -/
def sortByScoreDesc (l : List FaceResult) : List FaceResult :=
  l.foldr insertByScore []

/-- The full-image step of `process_user_images`: pass through when the
longer side is at most 1024, otherwise scale both sides by `1024 / max(h,w)`
with `int` truncation (`cv2.resize` raises when an output dimension is 0; its
interpolation is abstracted — only the output dimensions matter here). -/
def resizeFullImage (img : Img) : Except PipelineError Img :=
  if 1024 < max img.height img.width then
    let scale : ℚ := 1024 / ((max img.height img.width : ℕ) : ℚ)
    let newW : ℕ := (pyInt ((img.width : ℚ) * scale)).toNat
    let newH : ℕ := (pyInt ((img.height : ℚ) * scale)).toNat
    if newW = 0 ∨ newH = 0 then .error .resizeEmptyOutput
    else
      .ok
        { height := newH
          width := newW
          pix := fun i j => img.pix (i * img.height / newH) (j * img.width / newW) }
  else .ok img

/-- Model of `UserReferenceImages`: the output bundle. -/
structure UserReferenceImages where
  faceCrop : List (List Pixel)
  upperBodyCrop : Option (List (List Pixel)) := none
  fullImage : Option (List (List Pixel)) := none
  faceQualityScore : ℚ
  detectionConfidence : ℚ
  attributes : FacialAttributes
  faceEmbedding : Option (List ℚ)

/-- The bundle-assembly tail of `process_user_images`, applied to the winning
observation: upper-body crop (encoded — raises on an empty crop), resized
full image (encoded), attributes with skin tone, embedding. -/
def buildBundle (labL : Pixel → ℚ) (best : FaceResult) :
    Except PipelineError UserReferenceImages :=
  match cv2ToBytes (cropUpperBody best.originalImage best.bbox) with
  | .error e => .error e
  | .ok upperBody =>
    match resizeFullImage best.originalImage with
    | .error e => .error e
    | .ok fullResized =>
      match cv2ToBytes (imgToMat fullResized) with
      | .error e => .error e
      | .ok fullBytes =>
        let attrs := extractAttributes best.faceObj
        .ok
          { faceCrop := best.croppedImage
            upperBodyCrop := some upperBody
            fullImage := some fullBytes
            faceQualityScore := best.qualityScore
            detectionConfidence := best.detectionConfidence
            attributes := { attrs with
              skinTone := some (detectSkinTone labL best.originalImage best.bbox) }
            faceEmbedding := best.faceObj.embedding }

/-- Model of `FaceDetectionService.process_user_images`: collect all detections over
all inputs (a raised exception in any per-image step aborts the whole call),
return `none` when nothing survived, otherwise build the bundle from the head
of the stable descending sort. -/
def processUserImages (labL : Pixel → ℚ) (inputs : List ImageBytes) :
    Except PipelineError (Option UserReferenceImages) :=
  match mapExcept detectFacesWithDetails inputs with
  | .error e => .error e
  | .ok nested =>
    match sortByScoreDesc nested.flatten with
    | [] => .ok none
    | best :: _ => (buildBundle labL best).map some

/-! ## General lemmas about the embedding -/

/-- Truncation `pyInt` of a non-negative rational is its floor. -/
theorem pyInt_of_nonneg {q : ℚ} (h : 0 ≤ q) : pyInt q = ⌊q⌋ := by
  simp [pyInt, not_lt.mpr h]

/-- Truncation `pyInt` preserves non-negativity. -/
theorem pyInt_nonneg {q : ℚ} (h : 0 ≤ q) : 0 ≤ pyInt q := by
  rw [pyInt_of_nonneg h]
  exact Int.floor_nonneg.mpr h

/-- A slice has `rows × cols` pixels. -/
theorem matSize_sliceMat (img : Img) (r1 r2 c1 c2 : ℤ) :
    matSize (sliceMat img r1 r2 c1 c2) =
      (min r2 (img.height : ℤ) - max r1 0).toNat * (min c2 (img.width : ℤ) - max c1 0).toNat := by
  unfold matSize sliceMat
  simp only [List.map_map, Function.comp_def, List.length_map, List.length_range]
  rw [List.map_const']
  simp [List.sum_replicate, smul_eq_mul, Nat.mul_comm]

/-! ## Spec-side definitions for the Quality Scorer contract (§4.3) -/

/-- Spec §4.3 term 1: `detectionConfidence × 30`. -/
def confidenceTerm (face : RawFace) : ℚ := face.detScore * 30

/-- Spec §4.3 term 2: `min((faceBoxArea / imageArea) × 100, 25)`. -/
def sizeTerm (face : RawFace) (img : Img) : ℚ :=
  min ((((face.bbox.x2 - face.bbox.x1) * (face.bbox.y2 - face.bbox.y1) : ℤ) : ℚ) /
      ((img.width * img.height : ℕ) : ℚ) * 100) 25

/-- Spec §4.3 term 3: `30 − (|yaw|/90 × 20) − (|pitch|/90 × 10)` when pose is
present, flat 15 otherwise. -/
def poseTerm (face : RawFace) : ℚ :=
  match face.pose with
  | some p => 30 - |p.yaw| / 90 * 20 - |p.pitch| / 90 * 10
  | none => 15

/-- The face region of an (in-bounds) bbox in its source image. -/
def faceRegion (img : Img) (bbox : BBox) : List (List Pixel) :=
  sliceMat img bbox.y1 bbox.y2 bbox.x1 bbox.x2

/-- Spec §4.3 term 4: `min(laplacianVariance(grayscale(faceRegion)) / 100, 15)`,
and 0 when the face region has zero area. -/
def sharpnessTerm (face : RawFace) (img : Img) : ℚ :=
  if matSize (faceRegion img face.bbox) = 0 then 0
  else min (lapVar (grayMat (faceRegion img face.bbox)) / 100) 15

/-- Decomposition of the quality score into the four spec terms, for an
in-bounds bbox (shared helper). -/
theorem score_terms_split (face : RawFace) (img : Img)
    (hx1 : 0 ≤ face.bbox.x1) (hx2 : face.bbox.x2 ≤ (img.width : ℤ))
    (hy1 : 0 ≤ face.bbox.y1) (hy2 : face.bbox.y2 ≤ (img.height : ℤ)) :
    calculateQualityScore face img =
      confidenceTerm face + sizeTerm face img + poseTerm face + sharpnessTerm face img := by
  unfold calculateQualityScore confidenceTerm sizeTerm poseTerm sharpnessTerm faceRegion
  rw [max_eq_right hx1, max_eq_right hy1, min_eq_right hx2, min_eq_right hy2]
  by_cases h : matSize (sliceMat img face.bbox.y1 face.bbox.y2 face.bbox.x1 face.bbox.x2) = 0
  · simp [h]
  · simp [h, Nat.pos_of_ne_zero h]

/-- C7: with any non-negative padding fraction, the tight face crop of a
positive-area in-bounds bbox stays inside the image, contains the original
bbox, and never collapses. -/
theorem cropFaceTightRect_sound (img : Img) (bbox : BBox) (p : ℚ) (hp : 0 ≤ p)
    (hx1 : 0 ≤ bbox.x1) (hx : bbox.x1 < bbox.x2) (hx2 : bbox.x2 ≤ (img.width : ℤ))
    (hy1 : 0 ≤ bbox.y1) (hy : bbox.y1 < bbox.y2) (hy2 : bbox.y2 ≤ (img.height : ℤ)) :
    0 ≤ (cropFaceTightRect img bbox p).x1 ∧
      (cropFaceTightRect img bbox p).x1 ≤ bbox.x1 ∧
      bbox.x2 ≤ (cropFaceTightRect img bbox p).x2 ∧
      (cropFaceTightRect img bbox p).x2 ≤ (img.width : ℤ) ∧
      0 ≤ (cropFaceTightRect img bbox p).y1 ∧
      (cropFaceTightRect img bbox p).y1 ≤ bbox.y1 ∧
      bbox.y2 ≤ (cropFaceTightRect img bbox p).y2 ∧
      (cropFaceTightRect img bbox p).y2 ≤ (img.height : ℤ) ∧
      (cropFaceTightRect img bbox p).x1 < (cropFaceTightRect img bbox p).x2 ∧
      (cropFaceTightRect img bbox p).y1 < (cropFaceTightRect img bbox p).y2 := by
  have hpx : 0 ≤ pyInt (((bbox.x2 - bbox.x1 : ℤ) : ℚ) * p) :=
    pyInt_nonneg (mul_nonneg (by exact_mod_cast (by omega : (0:ℤ) ≤ bbox.x2 - bbox.x1)) hp)
  have hpy : 0 ≤ pyInt (((bbox.y2 - bbox.y1 : ℤ) : ℚ) * p) :=
    pyInt_nonneg (mul_nonneg (by exact_mod_cast (by omega : (0:ℤ) ≤ bbox.y2 - bbox.y1)) hp)
  simp only [cropFaceTightRect]
  refine ⟨?_, ?_, ?_, ?_, ?_, ?_, ?_, ?_, ?_, ?_⟩ <;> omega

/-! ## Concrete examples -/

/-- A mid-gray pixel (`bgr2gray` maps it to 100). -/
def pixGray : Pixel := ⟨100, 100, 100⟩

/-- A uniform mid-gray 4×4 image. -/
def imgEx4 : Img := ⟨4, 4, fun _ _ => pixGray⟩

/-- A uniform mid-gray 100×100 image. -/
def imgEx100 : Img := ⟨100, 100, fun _ _ => pixGray⟩

/-- A small in-bounds detection with pose, on `imgEx4`. -/
def faceEx1 : RawFace := ⟨⟨1, 1, 3, 3⟩, 9/10, some ⟨10, 20⟩, none, none, none⟩

/-- A tiny zero-confidence detection with an extreme pose (yaw = pitch = 180). -/
def faceExtremePose : RawFace := ⟨⟨0, 0, 2, 2⟩, 0, some ⟨180, 180⟩, none, none, none⟩

/-- Helper: the Laplacian of a uniform 2×2 mid-gray block is zero, so its
variance is zero. -/
theorem lapVar_gray2x2 : lapVar (grayMat [[pixGray, pixGray], [pixGray, pixGray]]) = 0 := by
  have h : laplacianMat (grayMat [[pixGray, pixGray], [pixGray, pixGray]]) = [[0, 0], [0, 0]] := by
    decide
  rw [lapVar, h]
  simp [varQ]

/-- C1: for an in-bounds bbox (and its source image) the quality score equals
the sum of the four terms of §4.3: `detectionConfidence × 30`, the capped
relative-size term, the pose term (flat 15 when pose is absent), and the
capped Laplacian sharpness term, which is 0 when the face region has zero
area. -/
theorem qualityScore_eq_sum_of_terms (face : RawFace) (img : Img)
    (hx1 : 0 ≤ face.bbox.x1) (hx2 : face.bbox.x2 ≤ (img.width : ℤ))
    (hy1 : 0 ≤ face.bbox.y1) (hy2 : face.bbox.y2 ≤ (img.height : ℤ)) :
    calculateQualityScore face img =
      confidenceTerm face + sizeTerm face img + poseTerm face + sharpnessTerm face img :=
  score_terms_split face img hx1 hx2 hy1 hy2

/-- Witness for C1 at a concrete in-bounds observation. -/
theorem qualityScore_eq_sum_of_terms_witness :
    (0 ≤ faceEx1.bbox.x1 ∧ faceEx1.bbox.x2 ≤ (imgEx4.width : ℤ) ∧
        0 ≤ faceEx1.bbox.y1 ∧ faceEx1.bbox.y2 ≤ (imgEx4.height : ℤ)) ∧
      calculateQualityScore faceEx1 imgEx4 =
        confidenceTerm faceEx1 + sizeTerm faceEx1 imgEx4 + poseTerm faceEx1 +
          sharpnessTerm faceEx1 imgEx4 :=
  ⟨⟨by decide, by decide, by decide, by decide⟩,
    qualityScore_eq_sum_of_terms faceEx1 imgEx4 (by decide) (by decide) (by decide) (by decide)⟩

/-- Witness for C7 at a concrete padding (the configured 0.3) and observation. -/
theorem cropFaceTightRect_sound_witness :
    ((0:ℚ) ≤ facePadding ∧ 0 ≤ faceEx1.bbox.x1 ∧ faceEx1.bbox.x1 < faceEx1.bbox.x2 ∧
        faceEx1.bbox.x2 ≤ (imgEx4.width : ℤ) ∧ 0 ≤ faceEx1.bbox.y1 ∧
        faceEx1.bbox.y1 < faceEx1.bbox.y2 ∧ faceEx1.bbox.y2 ≤ (imgEx4.height : ℤ)) ∧
      (0 ≤ (cropFaceTightRect imgEx4 faceEx1.bbox facePadding).x1 ∧
        (cropFaceTightRect imgEx4 faceEx1.bbox facePadding).x1 ≤ faceEx1.bbox.x1 ∧
        faceEx1.bbox.x2 ≤ (cropFaceTightRect imgEx4 faceEx1.bbox facePadding).x2 ∧
        (cropFaceTightRect imgEx4 faceEx1.bbox facePadding).x2 ≤ (imgEx4.width : ℤ) ∧
        0 ≤ (cropFaceTightRect imgEx4 faceEx1.bbox facePadding).y1 ∧
        (cropFaceTightRect imgEx4 faceEx1.bbox facePadding).y1 ≤ faceEx1.bbox.y1 ∧
        faceEx1.bbox.y2 ≤ (cropFaceTightRect imgEx4 faceEx1.bbox facePadding).y2 ∧
        (cropFaceTightRect imgEx4 faceEx1.bbox facePadding).y2 ≤ (imgEx4.height : ℤ) ∧
        (cropFaceTightRect imgEx4 faceEx1.bbox facePadding).x1 <
          (cropFaceTightRect imgEx4 faceEx1.bbox facePadding).x2 ∧
        (cropFaceTightRect imgEx4 faceEx1.bbox facePadding).y1 <
          (cropFaceTightRect imgEx4 faceEx1.bbox facePadding).y2) :=
  ⟨⟨by norm_num [facePadding], by decide, by decide, by decide, by decide, by decide, by decide⟩,
    cropFaceTightRect_sound imgEx4 faceEx1.bbox facePadding (by norm_num [facePadding])
      (by decide) (by decide) (by decide) (by decide) (by decide) (by decide)⟩

/-- C10: the pose term is not floored at 0 — at yaw = pitch = 180 it is
strictly negative and drags the whole quality score below 0. -/
theorem poseTerm_unfloored_score_negative :
    poseTerm faceExtremePose < 0 ∧ calculateQualityScore faceExtremePose imgEx100 < 0 := by
  have h3 : poseTerm faceExtremePose = -30 := by
    simp [poseTerm, faceExtremePose]
    norm_num
  refine ⟨by rw [h3]; norm_num, ?_⟩
  rw [score_terms_split faceExtremePose imgEx100 (by decide) (by decide) (by decide) (by decide)]
  have h1 : confidenceTerm faceExtremePose = 0 := by
    simp [confidenceTerm, faceExtremePose]
  have h2 : sizeTerm faceExtremePose imgEx100 = 1 / 25 := by
    simp [sizeTerm, faceExtremePose, imgEx100, min_def]
    norm_num
  have h4 : sharpnessTerm faceExtremePose imgEx100 = 0 := by
    have hr : faceRegion imgEx100 faceExtremePose.bbox = [[pixGray, pixGray], [pixGray, pixGray]] := by
      decide
    rw [sharpnessTerm, hr, lapVar_gray2x2]
    norm_num [matSize, min_def]
  rw [h1, h2, h3, h4]
  norm_num

/-! ## C6: what the quality score actually depends on -/

/-- Two images of equal dimensions that agree pixelwise on a clamped region
produce the same slice of that region. -/
theorem sliceMat_congr (imgA imgB : Img) (r1 r2 c1 c2 : ℤ)
    (hh : imgA.height = imgB.height) (hw : imgA.width = imgB.width)
    (hpix : ∀ i, i < (min r2 (imgA.height : ℤ) - max r1 0).toNat →
      ∀ j, j < (min c2 (imgA.width : ℤ) - max c1 0).toNat →
        imgA.pix ((max r1 0).toNat + i) ((max c1 0).toNat + j) =
          imgB.pix ((max r1 0).toNat + i) ((max c1 0).toNat + j)) :
    sliceMat imgA r1 r2 c1 c2 = sliceMat imgB r1 r2 c1 c2 := by
  unfold sliceMat
  rw [← hh, ← hw]
  refine List.map_congr_left fun i hi => List.map_congr_left fun j hj => ?_
  rw [List.mem_range] at hi hj
  exact hpix i hi j hj

/-- Amended C6: the quality score is a pure function of the observation, the
source image's dimensions, and the pixel contents of the clamped face region
(the sharpness term reads those pixels).  Images that agree there — whatever
their other pixels — yield equal scores. -/
theorem qualityScore_pure_in_obs_dims_region (face : RawFace) (imgA imgB : Img)
    (hh : imgA.height = imgB.height) (hw : imgA.width = imgB.width)
    (hx1 : 0 ≤ face.bbox.x1) (hy1 : 0 ≤ face.bbox.y1)
    (hx2 : 0 ≤ face.bbox.x2) (hy2 : 0 ≤ face.bbox.y2)
    (hpix : ∀ i, i < (min face.bbox.y2 (imgA.height : ℤ) - max face.bbox.y1 0).toNat →
      ∀ j, j < (min face.bbox.x2 (imgA.width : ℤ) - max face.bbox.x1 0).toNat →
        imgA.pix ((max face.bbox.y1 0).toNat + i) ((max face.bbox.x1 0).toNat + j) =
          imgB.pix ((max face.bbox.y1 0).toNat + i) ((max face.bbox.x1 0).toNat + j)) :
    calculateQualityScore face imgA = calculateQualityScore face imgB := by
  have hhI : (imgA.height : ℤ) = (imgB.height : ℤ) := by exact_mod_cast hh
  have hwI : (imgA.width : ℤ) = (imgB.width : ℤ) := by exact_mod_cast hw
  have hs : sliceMat imgA (0 ⊔ face.bbox.y1) ((imgB.height : ℤ) ⊓ face.bbox.y2)
      (0 ⊔ face.bbox.x1) ((imgB.width : ℤ) ⊓ face.bbox.x2) =
      sliceMat imgB (0 ⊔ face.bbox.y1) ((imgB.height : ℤ) ⊓ face.bbox.y2)
      (0 ⊔ face.bbox.x1) ((imgB.width : ℤ) ⊓ face.bbox.x2) := by
    apply sliceMat_congr imgA imgB _ _ _ _ hh hw
    intro i hi j hj
    have harg1 : (0 ⊔ face.bbox.y1 ⊔ 0).toNat = (face.bbox.y1 ⊔ 0).toNat := by omega
    have harg2 : (0 ⊔ face.bbox.x1 ⊔ 0).toNat = (face.bbox.x1 ⊔ 0).toNat := by omega
    rw [harg1, harg2]
    apply hpix
    · omega
    · omega
  simp only [calculateQualityScore]
  rw [hh, hw, hs]

/-- Black and white pixels (`bgr2gray` maps them to 0 and 255). -/
def pixBlack : Pixel := ⟨0, 0, 0⟩

/-- See `pixBlack`. -/
def pixWhite : Pixel := ⟨255, 255, 255⟩

/-- Uniform black 2×2 image. -/
def imgBlack2 : Img := ⟨2, 2, fun _ _ => pixBlack⟩

/-- 2×2 image, white at the top-left corner, black elsewhere. -/
def imgCorner2 : Img := ⟨2, 2, fun i j => if i = 0 ∧ j = 0 then pixWhite else pixBlack⟩

/-- 2×2 image, white at the bottom-right corner, black elsewhere. -/
def imgCornerFar2 : Img := ⟨2, 2, fun i j => if i = 1 ∧ j = 1 then pixWhite else pixBlack⟩

/-- A full-frame detection on a 2×2 image. -/
def faceFull2 : RawFace := ⟨⟨0, 0, 2, 2⟩, 1/2, none, none, none, none⟩

/-- A detection covering only the top-left pixel of a 2×2 image. -/
def faceTL1 : RawFace := ⟨⟨0, 0, 1, 1⟩, 1/2, none, none, none, none⟩

/-- Counterexample to C6: two images with identical dimensions and an
identical observation, but different pixel contents, get different quality
scores (the sharpness term reads the face region's pixels). -/
theorem qualityScore_reads_pixels_counterexample :
    imgBlack2.height = imgCorner2.height ∧ imgBlack2.width = imgCorner2.width ∧
      calculateQualityScore faceFull2 imgBlack2 ≠ calculateQualityScore faceFull2 imgCorner2 := by
  refine ⟨rfl, rfl, ?_⟩
  rw [score_terms_split faceFull2 imgBlack2 (by decide) (by decide) (by decide) (by decide),
    score_terms_split faceFull2 imgCorner2 (by decide) (by decide) (by decide) (by decide)]
  have hA : sharpnessTerm faceFull2 imgBlack2 = 0 := by
    have hr : faceRegion imgBlack2 faceFull2.bbox = [[pixBlack, pixBlack], [pixBlack, pixBlack]] := by
      decide
    have hl : laplacianMat (grayMat [[pixBlack, pixBlack], [pixBlack, pixBlack]]) = [[0, 0], [0, 0]] := by
      decide
    rw [sharpnessTerm, hr, lapVar, hl]
    norm_num [varQ, matSize, min_def]
  have hB : sharpnessTerm faceFull2 imgCorner2 = 15 := by
    have hr : faceRegion imgCorner2 faceFull2.bbox = [[pixWhite, pixBlack], [pixBlack, pixBlack]] := by
      decide
    have hl : laplacianMat (grayMat [[pixWhite, pixBlack], [pixBlack, pixBlack]]) =
        [[-1020, 510], [510, 0]] := by decide
    rw [sharpnessTerm, hr, lapVar, hl]
    have hv : varQ [-1020, 510, 510, 0] = 390150 := by
      simp [varQ]
      norm_num
    simp only [List.flatten]
    norm_num [matSize, hv, min_def]
  have hc : confidenceTerm faceFull2 = 15 := by
    simp [confidenceTerm, faceFull2]
    norm_num
  have hsz : sizeTerm faceFull2 imgBlack2 = 25 := by
    simp [sizeTerm, faceFull2, imgBlack2, min_def]
    norm_num
  have hsz' : sizeTerm faceFull2 imgCorner2 = 25 := by
    simp [sizeTerm, faceFull2, imgCorner2, min_def]
    norm_num
  have hp : poseTerm faceFull2 = 15 := by
    simp [poseTerm, faceFull2]
  rw [hA, hB, hc, hsz, hsz', hp]
  norm_num

/-- Witness for the amended C6 at concrete images that differ outside the
face region. -/
theorem qualityScore_pure_witness :
    imgBlack2.height = imgCornerFar2.height ∧ imgBlack2.width = imgCornerFar2.width ∧
      imgBlack2.pix 1 1 ≠ imgCornerFar2.pix 1 1 ∧
      calculateQualityScore faceTL1 imgBlack2 = calculateQualityScore faceTL1 imgCornerFar2 :=
  ⟨rfl, rfl, by decide,
    qualityScore_pure_in_obs_dims_region faceTL1 imgBlack2 imgCornerFar2 rfl rfl
      (by decide) (by decide) (by decide) (by decide) (by decide)⟩

/-! ## C9: the skin-tone classifier -/

/-- Spec §4.5: the central quarter-to-three-quarters sample region of the
face box. -/
def skinSampleRegion (img : Img) (bbox : BBox) : List (List Pixel) :=
  sliceMat img (bbox.y1 + Int.fdiv (bbox.y2 - bbox.y1) 4) (bbox.y2 - Int.fdiv (bbox.y2 - bbox.y1) 4)
    (bbox.x1 + Int.fdiv (bbox.x2 - bbox.x1) 4) (bbox.x2 - Int.fdiv (bbox.x2 - bbox.x1) 4)

/-- Spec §4.5: average lightness of a sampled region. -/
def avgLightnessOf (labL : Pixel → ℚ) (m : List (List Pixel)) : ℚ :=
  ((m.flatten.map labL).sum) / (matSize m : ℚ)

/-- C9: the skin-tone classifier samples the central quarter-to-three-quarters
sub-region, averages its lightness, and buckets it with boundary values 180
and 120 falling into the lower bucket; an empty sample yields "medium". -/
theorem skinTone_buckets (labL : Pixel → ℚ) (img : Img) (bbox : BBox)
    (hx1 : 0 ≤ bbox.x1) (hx : bbox.x1 ≤ bbox.x2) (hx2 : bbox.x2 ≤ (img.width : ℤ))
    (hy1 : 0 ≤ bbox.y1) (hy : bbox.y1 ≤ bbox.y2) (hy2 : bbox.y2 ≤ (img.height : ℤ)) :
    (matSize (skinSampleRegion img bbox) = 0 → detectSkinTone labL img bbox = "medium") ∧
      (matSize (skinSampleRegion img bbox) ≠ 0 →
        ((detectSkinTone labL img bbox = "light" ↔
            180 < avgLightnessOf labL (skinSampleRegion img bbox)) ∧
          (detectSkinTone labL img bbox = "medium" ↔
            (120 < avgLightnessOf labL (skinSampleRegion img bbox) ∧
              avgLightnessOf labL (skinSampleRegion img bbox) ≤ 180)) ∧
          (detectSkinTone labL img bbox = "dark" ↔
            avgLightnessOf labL (skinSampleRegion img bbox) ≤ 120))) := by
  simp only [detectSkinTone, skinSampleRegion, avgLightnessOf]
  set m := sliceMat img (bbox.y1 + Int.fdiv (bbox.y2 - bbox.y1) 4)
    (bbox.y2 - Int.fdiv (bbox.y2 - bbox.y1) 4) (bbox.x1 + Int.fdiv (bbox.x2 - bbox.x1) 4)
    (bbox.x2 - Int.fdiv (bbox.x2 - bbox.x1) 4) with hm
  set q : ℚ := (List.map labL m.flatten).sum / (matSize m : ℚ) with hq
  constructor
  · intro h
    rw [if_pos h]
  · intro h
    rw [if_neg h]
    by_cases h180 : 180 < q
    · rw [if_pos h180]
      exact ⟨⟨fun _ => h180, fun _ => rfl⟩,
        ⟨fun hh => absurd hh (by decide), fun hc => absurd h180 (not_lt.mpr hc.2)⟩,
        ⟨fun hh => absurd hh (by decide),
          fun hle => absurd (lt_of_lt_of_le h180 hle) (by norm_num)⟩⟩
    · rw [if_neg h180]
      by_cases h120 : 120 < q
      · rw [if_pos h120]
        exact ⟨⟨fun hh => absurd hh (by decide), fun hgt => absurd hgt h180⟩,
          ⟨fun _ => ⟨h120, not_lt.mp h180⟩, fun _ => rfl⟩,
          ⟨fun hh => absurd hh (by decide),
            fun hle => absurd (lt_of_lt_of_le h120 hle) (by norm_num)⟩⟩
      · rw [if_neg h120]
        exact ⟨⟨fun hh => absurd hh (by decide), fun hgt => absurd hgt h180⟩,
          ⟨fun hh => absurd hh (by decide), fun hc => absurd hc.1 h120⟩,
          ⟨fun _ => not_lt.mp h120, fun _ => rfl⟩⟩

/-- A uniform mid-gray 8×8 image. -/
def imgEx8 : Img := ⟨8, 8, fun _ _ => pixGray⟩

/-- The full-frame box on `imgEx8`. -/
def bboxFull8 : BBox := ⟨0, 0, 8, 8⟩

/-- Helper: on `imgEx8`'s central sample, a constant lightness averages to
itself. -/
theorem avgLightness_const8 (c : ℚ) :
    avgLightnessOf (fun _ => c) (skinSampleRegion imgEx8 bboxFull8) = c := by
  have hreg : skinSampleRegion imgEx8 bboxFull8 =
      [[pixGray, pixGray, pixGray, pixGray], [pixGray, pixGray, pixGray, pixGray],
        [pixGray, pixGray, pixGray, pixGray], [pixGray, pixGray, pixGray, pixGray]] := by
    decide
  rw [hreg]
  simp [avgLightnessOf, matSize]
  ring

/-- Witness for C9: uniform lightness 200 classifies "light"; the boundary
values 180 and 120 fall into the lower buckets "medium" and "dark". -/
theorem skinTone_buckets_witness :
    detectSkinTone (fun _ => (200 : ℚ)) imgEx8 bboxFull8 = "light" ∧
      detectSkinTone (fun _ => (180 : ℚ)) imgEx8 bboxFull8 = "medium" ∧
      detectSkinTone (fun _ => (120 : ℚ)) imgEx8 bboxFull8 = "dark" := by
  refine ⟨?_, ?_, ?_⟩
  · exact ((skinTone_buckets (fun _ => 200) imgEx8 bboxFull8 (by decide) (by decide) (by decide)
      (by decide) (by decide) (by decide)).2 (by decide)).1.mpr
      (by rw [avgLightness_const8]; norm_num)
  · exact ((skinTone_buckets (fun _ => 180) imgEx8 bboxFull8 (by decide) (by decide) (by decide)
      (by decide) (by decide) (by decide)).2 (by decide)).2.1.mpr
      ⟨by rw [avgLightness_const8]; norm_num, by rw [avgLightness_const8]⟩
  · exact ((skinTone_buckets (fun _ => 120) imgEx8 bboxFull8 (by decide) (by decide) (by decide)
      (by decide) (by decide) (by decide)).2 (by decide)).2.2.mpr
      (by rw [avgLightness_const8])

/-! ## C8: the full-image resize -/

/-- Helper: the scaled side `int(s * (1024 / L))` is the integer division
`s * 1024 / L`. -/
theorem pyInt_scale_eq_div (s L : ℕ) (hL : 0 < L) :
    pyInt ((s : ℚ) * (1024 / (L : ℚ))) = ((s * 1024 / L : ℕ) : ℤ) := by
  have e : (s : ℚ) * (1024 / (L : ℚ)) = ((s * 1024 : ℕ) : ℚ) / ((L : ℕ) : ℚ) := by
    push_cast
    ring
  have hnn : (0 : ℚ) ≤ (s : ℚ) * (1024 / (L : ℚ)) := by positivity
  rw [pyInt_of_nonneg hnn, e, Rat.floor_natCast_div_natCast]
  push_cast
  ring

/-- Helper: floor-division bounds for the scaled side, as rationals. -/
theorem scaled_side_bounds (s L : ℕ) (hL : 0 < L) :
    ((s * 1024 / L : ℕ) : ℚ) ≤ (s : ℚ) * (1024 / (L : ℚ)) ∧
      (s : ℚ) * (1024 / (L : ℚ)) - 1 < ((s * 1024 / L : ℕ) : ℚ) := by
  have e : (s : ℚ) * (1024 / (L : ℚ)) = ((s * 1024 : ℕ) : ℚ) / ((L : ℕ) : ℚ) := by
    push_cast
    ring
  constructor
  · rw [e]
    exact_mod_cast Nat.cast_div_le
  · rw [e]
    have hfl : ((s * 1024 / L : ℕ) : ℚ) = ((⌊((s * 1024 : ℕ) : ℚ) / ((L : ℕ) : ℚ)⌋ : ℤ) : ℚ) := by
      rw [Rat.floor_natCast_div_natCast]
      norm_cast
    rw [hfl]
    exact Int.sub_one_lt_floor _

/-- Amended C8: an image whose longer side is at most 1024 passes through
unchanged.  An image with longer side `L > 1024` whose scaled sides
`⌊s·1024/L⌋` are both at least 1 pixel resizes so that the longer output side
is exactly 1024 and each side is within 1 pixel of exact uniform scaling by
`1024/L`; when a scaled side truncates to 0 pixels, `cv2.resize` raises
instead (see the counterexample), so no output is produced. -/
theorem resize_longer_side_1024 (img : Img) :
    (max img.height img.width ≤ 1024 → resizeFullImage img = .ok img) ∧
      (1024 < max img.height img.width →
        1 ≤ img.height * 1024 / max img.height img.width →
        1 ≤ img.width * 1024 / max img.height img.width →
        ∃ out, resizeFullImage img = .ok out ∧
          out.height = img.height * 1024 / max img.height img.width ∧
          out.width = img.width * 1024 / max img.height img.width ∧
          max out.height out.width = 1024 ∧
          ((out.height : ℚ) ≤ (img.height : ℚ) * (1024 / ((max img.height img.width : ℕ) : ℚ)) ∧
            (img.height : ℚ) * (1024 / ((max img.height img.width : ℕ) : ℚ)) - 1 < (out.height : ℚ)) ∧
          ((out.width : ℚ) ≤ (img.width : ℚ) * (1024 / ((max img.height img.width : ℕ) : ℚ)) ∧
            (img.width : ℚ) * (1024 / ((max img.height img.width : ℕ) : ℚ)) - 1 < (out.width : ℚ))) := by
  constructor
  · intro h
    rw [resizeFullImage, if_neg (not_lt.mpr h)]
  · intro hgt h1 h2
    have hL : 0 < max img.height img.width := by omega
    have kh := pyInt_scale_eq_div img.height (max img.height img.width) hL
    have kw := pyInt_scale_eq_div img.width (max img.height img.width) hL
    rw [resizeFullImage]
    rw [if_pos hgt]
    simp only [kh, kw, Int.toNat_natCast]
    rw [if_neg (by omega)]
    refine ⟨_, rfl, rfl, rfl, ?_, ?_, ?_⟩
    · rcases Nat.le_total img.height img.width with hc | hc
      · have hmax : max img.height img.width = img.width := max_eq_right hc
        rw [hmax]
        have hw1024 : img.width * 1024 / img.width = 1024 := by
          rw [Nat.mul_comm, Nat.mul_div_cancel 1024 (by omega)]
        have hhle : img.height * 1024 / img.width ≤ 1024 := by
          calc img.height * 1024 / img.width ≤ img.width * 1024 / img.width :=
                Nat.div_le_div_right (Nat.mul_le_mul_right 1024 hc)
            _ = 1024 := hw1024
        simp [hw1024, max_eq_right hhle]
      · have hmax : max img.height img.width = img.height := max_eq_left hc
        rw [hmax]
        have hh1024 : img.height * 1024 / img.height = 1024 := by
          rw [Nat.mul_comm, Nat.mul_div_cancel 1024 (by omega)]
        have hwle : img.width * 1024 / img.height ≤ 1024 := by
          calc img.width * 1024 / img.height ≤ img.height * 1024 / img.height :=
                Nat.div_le_div_right (Nat.mul_le_mul_right 1024 hc)
            _ = 1024 := hh1024
        simp [hh1024, max_eq_left hwle]
    · exact scaled_side_bounds img.height (max img.height img.width) hL
    · exact scaled_side_bounds img.width (max img.height img.width) hL

/-- A 1×5000 strip: longer side 5000 exceeds 1024, and the scaled height
truncates to 0. -/
def imgStrip : Img := ⟨1, 5000, fun _ _ => pixGray⟩

/-- Counterexample to C8: for the 1×5000 image the resize raises
(`cv2.resize` with a zero output dimension) instead of producing an output
with longer side 1024. -/
theorem resize_no_output_counterexample :
    1024 < max imgStrip.height imgStrip.width ∧
      resizeFullImage imgStrip = .error .resizeEmptyOutput := by
  constructor
  · decide
  · have kh := pyInt_scale_eq_div imgStrip.height (max imgStrip.height imgStrip.width) (by decide)
    have kw := pyInt_scale_eq_div imgStrip.width (max imgStrip.height imgStrip.width) (by decide)
    rw [resizeFullImage, if_pos (by decide : 1024 < max imgStrip.height imgStrip.width)]
    simp only [kh, kw, Int.toNat_natCast]
    rw [if_pos (by decide)]

/-- An image of height 2048 and width 1000. -/
def imgTall : Img := ⟨2048, 1000, fun _ _ => pixGray⟩

/-- Witness for the amended C8: the 4×4 image passes through unchanged, and
the 2048×1000 image resizes to 1024×500. -/
theorem resize_longer_side_1024_witness :
    resizeFullImage imgEx4 = .ok imgEx4 ∧
      (∃ out, resizeFullImage imgTall = .ok out ∧
        out.height = imgTall.height * 1024 / max imgTall.height imgTall.width ∧
        out.width = imgTall.width * 1024 / max imgTall.height imgTall.width ∧
        max out.height out.width = 1024 ∧
        ((out.height : ℚ) ≤ (imgTall.height : ℚ) * (1024 / ((max imgTall.height imgTall.width : ℕ) : ℚ)) ∧
          (imgTall.height : ℚ) * (1024 / ((max imgTall.height imgTall.width : ℕ) : ℚ)) - 1 < (out.height : ℚ)) ∧
        ((out.width : ℚ) ≤ (imgTall.width : ℚ) * (1024 / ((max imgTall.height imgTall.width : ℕ) : ℚ)) ∧
          (imgTall.width : ℚ) * (1024 / ((max imgTall.height imgTall.width : ℕ) : ℚ)) - 1 < (out.width : ℚ))) :=
  ⟨(resize_longer_side_1024 imgEx4).1 (by decide),
    (resize_longer_side_1024 imgTall).2 (by decide) (by decide) (by decide)⟩

/-! ## Pipeline inversion infrastructure -/

/-- Unfolding `mapExcept` on the empty list. -/
theorem mapExcept_nil (f : α → Except ε β) : mapExcept f [] = .ok [] := rfl

/-- Unfolding `mapExcept` on a cons. -/
theorem mapExcept_cons (f : α → Except ε β) (x : α) (xs : List α) :
    mapExcept f (x :: xs) =
      match f x with
      | .error e => .error e
      | .ok y =>
        match mapExcept f xs with
        | .error e => .error e
        | .ok ys => .ok (y :: ys) := rfl

/-- Successful encoding returns the input matrix, which is then non-empty. -/
theorem cv2ToBytes_ok {m m' : List (List Pixel)} (h : cv2ToBytes m = .ok m') :
    m' = m ∧ matSize m ≠ 0 := by
  unfold cv2ToBytes at h
  split at h
  · exact absurd h (by simp)
  · exact ⟨(Except.ok.injEq _ _ ▸ h).symm, by assumption⟩

/-- If every pointwise success of `f` is described by `g`, a successful
`mapExcept f` is the plain map of `g`. -/
theorem mapExcept_ok_pointwise {α β ε : Type} {f : α → Except ε β} {g : α → β}
    (hf : ∀ a y, f a = .ok y → y = g a) :
    ∀ {l : List α} {ys : List β}, mapExcept f l = .ok ys → ys = l.map g := by
  intro l
  induction l with
  | nil =>
    intro ys h
    rw [mapExcept_nil] at h
    simpa using h.symm
  | cons x xs IH =>
    intro ys h
    rw [mapExcept_cons] at h
    cases hx : f x with
    | error e => rw [hx] at h; simp at h
    | ok y =>
      rw [hx] at h
      cases hrest : mapExcept f xs with
      | error e => rw [hrest] at h; simp at h
      | ok zs =>
        rw [hrest] at h
        simp only [Except.ok.injEq] at h
        rw [← h, List.map_cons, ← hf x y hx, IH hrest]

/-- A successful per-image detection returns exactly the size-filtered
detections of the decoded image, in order. -/
theorem detect_ok {b : ImageBytes} {rs : List FaceResult}
    (h : detectFacesWithDetails b = .ok rs) :
    ∃ img, b.decoded = some img ∧ rs = detectPure img b.detections := by
  obtain ⟨dec, dets⟩ := b
  cases dec with
  | none => exact absurd h (by simp [detectFacesWithDetails, bytesToCv2])
  | some img =>
    refine ⟨img, rfl, ?_⟩
    have h' : mapExcept (fun f => (cv2ToBytes (cropFaceTight img f.bbox facePadding)).map
        fun cropped => { mkFaceResult img f with croppedImage := cropped })
        (dets.filter sizePass) = .ok rs := h
    unfold detectPure
    refine mapExcept_ok_pointwise ?_ h'
    intro a y hy
    cases hcv : cv2ToBytes (cropFaceTight img a.bbox facePadding) with
    | error e => rw [hcv] at hy; simp [Except.map] at hy
    | ok c =>
      rw [hcv] at hy
      obtain ⟨hc, -⟩ := cv2ToBytes_ok hcv
      subst hc
      simp only [Except.map, Except.ok.injEq] at hy
      rw [← hy]
      rfl

/-- Unfolding `survivors` over a cons input. -/
theorem survivors_cons (b : ImageBytes) (bs : List ImageBytes) :
    survivors (b :: bs) =
      (match b.decoded with
        | none => []
        | some img => detectPure img b.detections) ++ survivors bs := by
  simp [survivors]

/-- A fully successful collection phase yields exactly the `survivors`. -/
theorem collect_ok {inputs : List ImageBytes} {nested : List (List FaceResult)}
    (h : mapExcept detectFacesWithDetails inputs = .ok nested) :
    nested.flatten = survivors inputs := by
  induction inputs generalizing nested with
  | nil =>
    rw [mapExcept_nil] at h
    simp only [Except.ok.injEq] at h
    subst h
    rfl
  | cons b bs IH =>
    simp only [mapExcept_cons] at h
    cases hd : detectFacesWithDetails b with
    | error e => rw [hd] at h; simp at h
    | ok rs =>
      rw [hd] at h
      cases hrest : mapExcept detectFacesWithDetails bs with
      | error e => rw [hrest] at h; simp at h
      | ok ys =>
        rw [hrest] at h
        simp only [Except.ok.injEq] at h
        subst h
        obtain ⟨img, hdec, hpure⟩ := detect_ok hd
        rw [List.flatten_cons, IH hrest, survivors_cons, hdec, hpure]

/-- Insertion `insertByScore` never empties a list. -/
theorem insertByScore_ne_nil (x : FaceResult) (l : List FaceResult) :
    insertByScore x l ≠ [] := by
  cases l with
  | nil => simp [insertByScore]
  | cons y ys =>
    rw [insertByScore]
    split <;> simp

/-- The sort is empty exactly when its input is. -/
theorem sortByScoreDesc_eq_nil_iff (l : List FaceResult) :
    sortByScoreDesc l = [] ↔ l = [] := by
  cases l with
  | nil => simp [sortByScoreDesc]
  | cons a t =>
    simp only [sortByScoreDesc, List.foldr_cons]
    constructor
    · intro h
      exact absurd h (insertByScore_ne_nil a _)
    · intro h
      exact absurd h (by simp)

/-- The head of the stable descending sort is the first-encountered maximum:
the input splits around it, everything before it scores strictly less, and
nothing anywhere scores more. -/
theorem sortByScoreDesc_head_best (l : List FaceResult) :
    ∀ x rest, sortByScoreDesc l = x :: rest →
      ∃ pre post, l = pre ++ x :: post ∧
        (∀ y ∈ pre, y.qualityScore < x.qualityScore) ∧
        (∀ y ∈ l, y.qualityScore ≤ x.qualityScore) := by
  induction l with
  | nil =>
    intro x rest h
    simp [sortByScoreDesc] at h
  | cons a t IH =>
    intro x rest h
    rw [sortByScoreDesc, List.foldr_cons] at h
    cases hs : List.foldr insertByScore [] t with
    | nil =>
      have ht : t = [] := (sortByScoreDesc_eq_nil_iff t).mp hs
      rw [hs, insertByScore] at h
      simp only [List.cons.injEq] at h
      obtain ⟨hax, -⟩ := h
      subst hax
      subst ht
      exact ⟨[], [], rfl, by simp, by simp⟩
    | cons b s =>
      rw [hs, insertByScore] at h
      by_cases hba : b.qualityScore ≤ a.qualityScore
      · rw [if_pos hba] at h
        simp only [List.cons.injEq] at h
        obtain ⟨hax, -⟩ := h
        subst hax
        obtain ⟨pre', post', hdec, -, hall⟩ := IH b s hs
        refine ⟨[], t, rfl, by simp, ?_⟩
        intro y hy
        rcases List.mem_cons.mp hy with rfl | hyt
        · exact le_refl _
        · exact le_trans (hall y hyt) hba
      · rw [if_neg hba] at h
        simp only [List.cons.injEq] at h
        obtain ⟨hbx, -⟩ := h
        subst hbx
        obtain ⟨pre', post', hdec, hpre, hall⟩ := IH b s hs
        refine ⟨a :: pre', post', by simp [hdec], ?_, ?_⟩
        · intro y hy
          rcases List.mem_cons.mp hy with rfl | hyp
          · exact not_le.mp hba
          · exact hpre y hyp
        · intro y hy
          rcases List.mem_cons.mp hy with rfl | hyt
          · exact le_of_lt (not_le.mp hba)
          · exact hall y hyt

/-- Inverting a successful bundle build: the bundle's identity fields come
from the winning observation and its upper-body crop is present and
non-empty. -/
theorem buildBundle_ok {labL : Pixel → ℚ} {best : FaceResult} {bu : UserReferenceImages}
    (h : buildBundle labL best = .ok bu) :
    bu.faceCrop = best.croppedImage ∧
      bu.faceQualityScore = best.qualityScore ∧
      bu.detectionConfidence = best.detectionConfidence ∧
      ∃ m, bu.upperBodyCrop = some m ∧ matSize m ≠ 0 ∧
        m = cropUpperBody best.originalImage best.bbox := by
  unfold buildBundle at h
  split at h
  · exact absurd h (by simp)
  rename_i upperBody hub
  split at h
  · exact absurd h (by simp)
  rename_i fullResized hrz
  split at h
  · exact absurd h (by simp)
  rename_i fullBytes hfb
  obtain ⟨hc, hne⟩ := cv2ToBytes_ok hub
  subst hc
  simp only [Except.ok.injEq] at h
  rw [← h]
  exact ⟨rfl, rfl, rfl, _, rfl, hne, rfl⟩

/-- Inverting a successful `process_user_images` call: either nothing
survived and the result is `none`, or the bundle was built from the head of
the sorted survivor list. -/
theorem process_ok_inv {labL : Pixel → ℚ} {inputs : List ImageBytes}
    {r : Option UserReferenceImages} (h : processUserImages labL inputs = .ok r) :
    (r = none ∧ survivors inputs = []) ∨
      (∃ best rest bu, sortByScoreDesc (survivors inputs) = best :: rest ∧
        buildBundle labL best = .ok bu ∧ r = some bu) := by
  unfold processUserImages at h
  split at h
  · exact absurd h (by simp)
  rename_i nested hmap
  have hflat := collect_ok hmap
  split at h
  · rename_i hs
    rw [hflat] at hs
    simp only [Except.ok.injEq] at h
    exact Or.inl ⟨h.symm, (sortByScoreDesc_eq_nil_iff _).mp hs⟩
  · rename_i best rest hs
    rw [hflat] at hs
    cases hb : buildBundle labL best with
    | error e => rw [hb] at h; simp [Except.map] at h
    | ok bu =>
      rw [hb] at h
      simp only [Except.map, Except.ok.injEq] at h
      exact Or.inr ⟨best, rest, bu, hs, hb, h.symm⟩

/-- Every collected observation passed the minimum-size filter. -/
theorem survivors_size (inputs : List ImageBytes) :
    ∀ fr ∈ survivors inputs,
      minFaceSize ≤ fr.bbox.x2 - fr.bbox.x1 ∧ minFaceSize ≤ fr.bbox.y2 - fr.bbox.y1 := by
  intro fr hfr
  unfold survivors at hfr
  rw [List.mem_flatMap] at hfr
  obtain ⟨b, -, hmem⟩ := hfr
  cases hd : b.decoded with
  | none => rw [hd] at hmem; simp at hmem
  | some img =>
    rw [hd] at hmem
    unfold detectPure at hmem
    rw [List.mem_map] at hmem
    obtain ⟨f, hf, rfl⟩ := hmem
    rw [List.mem_filter] at hf
    have hsz := hf.2
    unfold sizePass at hsz
    simp only [Bool.not_eq_true', Bool.or_eq_false_iff, decide_eq_false_iff_not, not_lt] at hsz
    exact ⟨hsz.1, hsz.2⟩

/-- C2: on a call that raises no exception, every collected observation meets
the configured minimum bbox size; the call returns no bundle exactly when no
observation survived; and a returned bundle is built from the unique
first-encountered maximum-score survivor (stable tie-break: all earlier
survivors score strictly less, no survivor scores more). -/
theorem selection_policy (labL : Pixel → ℚ) (inputs : List ImageBytes)
    (hok : ∃ r, processUserImages labL inputs = .ok r) :
    (∀ fr ∈ survivors inputs,
        minFaceSize ≤ fr.bbox.x2 - fr.bbox.x1 ∧ minFaceSize ≤ fr.bbox.y2 - fr.bbox.y1) ∧
      (processUserImages labL inputs = .ok none ↔ survivors inputs = []) ∧
      (∀ bu, processUserImages labL inputs = .ok (some bu) →
        ∃ pre best post, survivors inputs = pre ++ best :: post ∧
          (∀ y ∈ pre, y.qualityScore < best.qualityScore) ∧
          (∀ y ∈ survivors inputs, y.qualityScore ≤ best.qualityScore) ∧
          bu.faceCrop = best.croppedImage ∧
          bu.faceQualityScore = best.qualityScore ∧
          bu.detectionConfidence = best.detectionConfidence) := by
  obtain ⟨r, hr⟩ := hok
  refine ⟨survivors_size inputs, ⟨?_, ?_⟩, ?_⟩
  · intro h0
    rcases process_ok_inv h0 with ⟨-, hnil⟩ | ⟨best, rest, bu, -, -, hcontra⟩
    · exact hnil
    · exact absurd hcontra (by simp)
  · intro hnil
    rcases process_ok_inv hr with ⟨rfl, -⟩ | ⟨best, rest, bu, hs, -, -⟩
    · exact hr
    · rw [hnil] at hs
      simp [sortByScoreDesc] at hs
  · intro bu h0
    rcases process_ok_inv h0 with ⟨hcontra, -⟩ | ⟨best, rest, bu', hs, hb, hsome⟩
    · exact absurd hcontra (by simp)
    · obtain rfl : bu' = bu := (Option.some.injEq _ _).mp hsome.symm
      obtain ⟨pre, post, hdec, hpre, hall⟩ := sortByScoreDesc_head_best _ best rest hs
      obtain ⟨hfc, hq, hdc, -⟩ := buildBundle_ok hb
      exact ⟨pre, best, post, hdec, hpre, hall, hfc, hq, hdc⟩

/-- C4: every produced reference bundle carries an upper-body crop — the
field is never absent — and that crop is never a degenerate (zero-pixel)
image; a degenerate upper-body geometry would instead abort the call in the
encoding step, so "absent" and "degenerate" are both impossible in a
produced bundle, which makes "absent iff degenerate" hold. -/
theorem bundle_upperBody_present (labL : Pixel → ℚ) (inputs : List ImageBytes)
    (hok : ∃ bu, processUserImages labL inputs = .ok (some bu)) :
    ∃ bu m, processUserImages labL inputs = .ok (some bu) ∧
      bu.upperBodyCrop = some m ∧ matSize m ≠ 0 := by
  obtain ⟨bu, hb⟩ := hok
  rcases process_ok_inv hb with ⟨hcontra, -⟩ | ⟨best, rest, bu', -, hbb, hsome⟩
  · exact absurd hcontra (by simp)
  · obtain ⟨-, -, -, m, hm, hne, -⟩ := buildBundle_ok hbb
    exact ⟨bu', m, by rw [hb, hsome], hm, hne⟩

/-! ## Concrete pipeline runs -/

/-- A detection covering 64×64 pixels (meets the size filter) whose box
extends past the tiny 2×2 decoded image. -/
def faceBig : RawFace := ⟨⟨0, 0, 64, 64⟩, 1/2, none, none, none, none⟩

/-- A byte buffer that decodes to the black 2×2 image with one detection. -/
def goodBytes : ImageBytes := ⟨some imgBlack2, [faceBig]⟩

/-- A byte buffer that does not decode (`cv2.imdecode` gives `None`). -/
def badBytes : ImageBytes := ⟨none, []⟩

/-- The black 2×2 matrix. -/
def mat2 : List (List Pixel) := [[pixBlack, pixBlack], [pixBlack, pixBlack]]

/-- The tight crop of `faceBig` on the 2×2 image is the whole image. -/
theorem cropFaceTight_good : cropFaceTight imgBlack2 faceBig.bbox facePadding = mat2 := by
  have hrect : cropFaceTightRect imgBlack2 faceBig.bbox facePadding = ⟨0, 0, 2, 2⟩ := by
    simp [cropFaceTightRect, faceBig, imgBlack2, facePadding]
    norm_num [pyInt]
  simp only [cropFaceTight]
  rw [hrect]
  decide

/-- The upper-body crop of `faceBig` on the 2×2 image is the whole image. -/
theorem cropUpperBody_good : cropUpperBody imgBlack2 faceBig.bbox = mat2 := by
  have hrect : cropUpperBodyRect imgBlack2 faceBig.bbox = ⟨0, 0, 2, 2⟩ := by
    simp [cropUpperBodyRect, faceBig, imgBlack2]
    norm_num [pyInt]
    decide
  simp only [cropUpperBody]
  rw [hrect]
  decide

/-- The per-image detection step succeeds on `goodBytes` with exactly one
observation. -/
theorem detect_good : detectFacesWithDetails goodBytes = .ok [mkFaceResult imgBlack2 faceBig] := by
  have hcv : cv2ToBytes (cropFaceTight imgBlack2 faceBig.bbox facePadding) =
      .ok (cropFaceTight imgBlack2 faceBig.bbox facePadding) := by
    rw [cv2ToBytes, if_neg]
    rw [cropFaceTight_good]
    decide
  show mapExcept (fun f => (cv2ToBytes (cropFaceTight imgBlack2 f.bbox facePadding)).map
      fun cropped => { mkFaceResult imgBlack2 f with croppedImage := cropped }) [faceBig] =
    .ok [mkFaceResult imgBlack2 faceBig]
  rw [mapExcept_cons]
  simp only [hcv, Except.map, mapExcept_nil]
  rfl

/-- The whole pipeline succeeds on `[goodBytes]` and produces `bundleGood`. -/
def bundleGood : UserReferenceImages :=
  { faceCrop := cropFaceTight imgBlack2 faceBig.bbox facePadding
    upperBodyCrop := some (cropUpperBody imgBlack2 faceBig.bbox)
    fullImage := some (imgToMat imgBlack2)
    faceQualityScore := calculateQualityScore faceBig imgBlack2
    detectionConfidence := faceBig.detScore
    attributes := { estimatedAge := none, gender := none, hasGlasses := false,
                    hasBeard := false, skinTone := some ("medium") }
    faceEmbedding := none }

/-- Building the bundle for the winning observation of `goodBytes` succeeds
(for any lightness conversion: the skin sample region is empty, so the skin
tone defaults to "medium" without reading pixels). -/
theorem buildBundle_good (labL : Pixel → ℚ) :
    buildBundle labL (mkFaceResult imgBlack2 faceBig) = .ok bundleGood := by
  have hub : cv2ToBytes (cropUpperBody imgBlack2 faceBig.bbox) =
      .ok (cropUpperBody imgBlack2 faceBig.bbox) := by
    rw [cv2ToBytes, if_neg]
    rw [cropUpperBody_good]
    decide
  unfold buildBundle
  rw [show (mkFaceResult imgBlack2 faceBig).originalImage = imgBlack2 from rfl,
    show (mkFaceResult imgBlack2 faceBig).bbox = faceBig.bbox from rfl, hub]
  rfl

/-- Full pipeline on the single good input. -/
theorem process_good (labL : Pixel → ℚ) :
    processUserImages labL [goodBytes] = .ok (some bundleGood) := by
  have hmap : mapExcept detectFacesWithDetails [goodBytes] =
      .ok [[mkFaceResult imgBlack2 faceBig]] := by
    rw [mapExcept_cons, detect_good, mapExcept_nil]
  unfold processUserImages
  rw [hmap]
  show (buildBundle labL (mkFaceResult imgBlack2 faceBig)).map some = _
  rw [buildBundle_good labL]
  rfl

/-- Amended C3: the decoder signals malformed input by returning no image
(`cv2.imdecode` gives `None`, no exception of its own); the `None` image is
then fed to the analyzer, which raises — so one malformed input aborts the
whole call at that point and the remaining images are never processed. -/
theorem malformed_input_aborts (labL : Pixel → ℚ) (faces : List RawFace)
    (rest : List ImageBytes) :
    bytesToCv2 ⟨none, faces⟩ = none ∧
      processUserImages labL ((⟨none, faces⟩ : ImageBytes) :: rest) =
        .error .analyzerNoneImage :=
  ⟨rfl, rfl⟩

/-- Counterexample to C3: with a malformed first image the call aborts with
the analyzer error, although the very same second image alone yields a
bundle — the per-image failure is not recovered and later images are not
reached. -/
theorem decode_failure_not_recovered :
    processUserImages (fun _ => 0) [badBytes, goodBytes] = .error .analyzerNoneImage ∧
      processUserImages (fun _ => 0) [goodBytes] = .ok (some bundleGood) :=
  ⟨rfl, process_good _⟩

/-- An analyzer detection reaching 5 pixels left of the image and far past
its right/bottom edges; 65×70 pixels, so it passes the size filter. -/
def faceOOB : RawFace := ⟨⟨-5, 0, 60, 70⟩, 1/2, none, none, none, none⟩

/-- A byte buffer decoding to the 2×2 image with the out-of-bounds detection. -/
def oobBytes : ImageBytes := ⟨some imgBlack2, [faceOOB]⟩

/-- The tight crop of the out-of-bounds box clamps to the whole 2×2 image. -/
theorem cropFaceTight_oob : cropFaceTight imgBlack2 faceOOB.bbox facePadding = mat2 := by
  have hrect : cropFaceTightRect imgBlack2 faceOOB.bbox facePadding = ⟨0, 0, 2, 2⟩ := by
    simp [cropFaceTightRect, faceOOB, imgBlack2, facePadding]
    norm_num [pyInt]
  simp only [cropFaceTight]
  rw [hrect]
  decide

/-- Detection on `oobBytes` succeeds, keeping the raw out-of-bounds box. -/
theorem detect_oob : detectFacesWithDetails oobBytes = .ok [mkFaceResult imgBlack2 faceOOB] := by
  have hcv : cv2ToBytes (cropFaceTight imgBlack2 faceOOB.bbox facePadding) =
      .ok (cropFaceTight imgBlack2 faceOOB.bbox facePadding) := by
    rw [cv2ToBytes, if_neg]
    rw [cropFaceTight_oob]
    decide
  show mapExcept (fun f => (cv2ToBytes (cropFaceTight imgBlack2 f.bbox facePadding)).map
      fun cropped => { mkFaceResult imgBlack2 f with croppedImage := cropped }) [faceOOB] =
    .ok [mkFaceResult imgBlack2 faceOOB]
  rw [mapExcept_cons]
  simp only [hcv, Except.map, mapExcept_nil]
  rfl

/-- Counterexample to C5: the observer hands a detection downstream whose
bbox starts at x = −5 and ends at x = 60 on a width-2 image — no clamping to
`[0, width) × [0, height)` happens. -/
theorem observer_no_clamp_counterexample :
    detectFacesWithDetails oobBytes = .ok [mkFaceResult imgBlack2 faceOOB] ∧
      (mkFaceResult imgBlack2 faceOOB).bbox = ⟨-5, 0, 60, 70⟩ ∧
      (mkFaceResult imgBlack2 faceOOB).bbox.x1 < 0 ∧
      (imgBlack2.width : ℤ) < (mkFaceResult imgBlack2 faceOOB).bbox.x2 :=
  ⟨detect_oob, rfl, by decide, by decide⟩

/-- Amended C5: the observer passes the analyzer's integer boxes through
unchanged (only the size filter drops detections); produced boxes lie within
image bounds exactly when the analyzer's raw boxes do. -/
theorem observer_passes_boxes_through (b : ImageBytes)
    (hok : ∃ rs, detectFacesWithDetails b = .ok rs) :
    (detectFacesWithDetails b).map (List.map FaceResult.bbox) =
      .ok ((b.detections.filter sizePass).map (fun f => f.bbox)) := by
  obtain ⟨rs, h⟩ := hok
  obtain ⟨img', hdec', hrs⟩ := detect_ok h
  rw [h, hrs]
  simp only [Except.map, detectPure, List.map_map]
  rfl

/-- Witness for the amended C5 at the concrete out-of-bounds input. -/
theorem observer_passes_boxes_through_witness :
    (∃ rs, detectFacesWithDetails oobBytes = .ok rs) ∧
      (detectFacesWithDetails oobBytes).map (List.map FaceResult.bbox) =
        .ok ((oobBytes.detections.filter sizePass).map (fun f => f.bbox)) :=
  ⟨⟨_, detect_oob⟩, observer_passes_boxes_through oobBytes ⟨_, detect_oob⟩⟩

/-- Witness for C2 at a concrete successful call with one survivor. -/
theorem selection_policy_witness :
    (∃ r, processUserImages (fun _ => 0) [goodBytes] = .ok r) ∧
      (processUserImages (fun _ => 0) [goodBytes] = .ok none ↔ survivors [goodBytes] = []) ∧
      (survivors [goodBytes]).length = 1 :=
  ⟨⟨some bundleGood, process_good _⟩,
    (selection_policy (fun _ => 0) [goodBytes] ⟨some bundleGood, process_good _⟩).2.1,
    rfl⟩

/-- Witness for C4 at a concrete successful call. -/
theorem bundle_upperBody_present_witness :
    ∃ bu m, processUserImages (fun _ => 0) [goodBytes] = .ok (some bu) ∧
      bu.upperBodyCrop = some m ∧ matSize m ≠ 0 :=
  bundle_upperBody_present (fun _ => 0) [goodBytes] ⟨bundleGood, process_good _⟩
